import Mathlib

/-!
Shallow embedding of the shrek-deck card-list library:
`src/parser.rs` (line/file parsing) and `src/tts.rs` together with
`src/lib.rs` (deck-to-document transformation).

Modelling conventions:
- Rust `i64` values are Lean `Int`; where the source can overflow
  (`str::parse::<i64>`) the embedding checks the `i64` range explicitly.
- `io::Error` and `ParseIntError` payloads are opaque to the program
  (they are only displayed); they are modelled as `String` / dropped.
- Fallible Rust functions returning `Result` become `Except`.
- The card-info collaborator (trait `GetCardInfo`) is a record of
  functions over an abstract card type.
- `HashMap` is modelled as an insertion-ordered association list with
  replace-on-duplicate-key insert, which preserves exactly the key/value
  observations the claims are about.
- The nondeterministic fresh-token generator `generate_guid` and the
  fixed cosmetic boilerplate fields (floats, colour, physics flags) of
  `ObjectState` are not observable by any claim and are omitted from the
  `ObjectState` model; the computed fields (`name`, `card_id`,
  `deck_ids`, `custom_deck`) are kept.
-/

deriving instance DecidableEq for Except

/-- Error kinds of `parser::Error` (src/parser.rs, lines 11-36).
`ParseIntError` and `io::Error` payloads are opaque and modelled as
dropped / `String`; `PathBuf` is modelled as `String`. -/
inductive PError where
  | UnexpectedChar (obtained : Char) (expected : List String)
  | AmountIsZero (card_name : String)
  | NameIsEmpty
  | NotANumber (string : String)
  | CantOpenFile (path : String) (error : String)
  | NameMultipleTimes (name : String)
  | CouldntReadLine (path : String) (line : Nat) (error : String)
deriving DecidableEq, Repr

/-- The `LinePosition` struct (src/parser.rs, lines 142-145). -/
structure LinePosition where
  line : Option Nat
  column : Option Nat
deriving DecidableEq, Repr

/-- The `ParseError` struct (src/parser.rs, lines 88-91). -/
structure ParseError where
  position : LinePosition
  error : PError
deriving DecidableEq, Repr

/-- `ParseError::at_line` (src/parser.rs, lines 94-102): fill in the
line, keep the column. -/
def ParseError.at_line (e : ParseError) (line : Nat) : ParseError :=
  ⟨⟨some line, e.position.column⟩, e.error⟩

/-- The `CardError` enum of src/lib.rs (lines 13-28). -/
inductive CardError where
  | CardDoesntExist (card_name : String)
  | BackImageFileError (card_name : String) (image_url : String)
  | FrontImageNotFound (card_name : String) (image_url : String)
  | Custom (message : String)
deriving DecidableEq, Repr

/-- The `CardShape` enum of src/tts.rs (lines 111-117). -/
inductive CardShape where
  | RoundedRectangle
  | Rectangle
  | RoundedHexagon
  | Hexagon
  | Circle
deriving DecidableEq, Repr

/-- The `From<CardShape> for i64` impl (src/tts.rs, lines 119-129). -/
def CardShape.toInt : CardShape → Int
  | .RoundedRectangle => 0
  | .Rectangle => 1
  | .RoundedHexagon => 2
  | .Hexagon => 3
  | .Circle => 4

/-- The `GetCardInfo` trait (src/lib.rs, lines 61-81), as a record of
operations over an abstract card type `α`. -/
structure GetCardInfo (α : Type) where
  get_name : α → String
  get_front_image : α → Except CardError String
  get_back_image : α → Except CardError String
  get_card_shape : α → Except CardError CardShape
  parse : String → Except ParseError α

/-- The `CardEntry` struct (src/lib.rs, lines 84-87); `amount` is `i64`. -/
structure CardEntry (α : Type) where
  card : α
  amount : Int
deriving DecidableEq, Repr

/-- Parser states (src/parser.rs, lines 241-245). -/
inductive ParserState where
  | Numbering
  | Naming
  | Exing
deriving DecidableEq, Repr

/-- The character loop of `parse_line` (src/parser.rs, lines 164-203).
`idx` is the byte offset supplied by `char_indices`; the match arm
`'0' | ... | '9'` is `Char.isDigit`. Returns the final
`(number_str, name)` buffers, or the `UnexpectedChar` error. -/
def parse_line_scan : ParserState → List Char → Nat → String → String →
    Except ParseError (String × String)
  | _, [], _, number_str, name => .ok (number_str, name)
  | .Numbering, chr :: rest, idx, number_str, name =>
    if chr.isDigit then
      parse_line_scan .Numbering rest (idx + chr.utf8Size) (number_str.push chr) name
    else if chr = ' ' ∨ chr = '\t' then
      parse_line_scan .Exing rest (idx + chr.utf8Size) number_str name
    else if chr = 'x' then
      parse_line_scan .Naming rest (idx + chr.utf8Size) number_str name
    else
      .error ⟨⟨none, some (idx + 1)⟩,
        .UnexpectedChar chr
          (if number_str.isEmpty then ["a digit"]
           else ["a digit", "a number separator (space, tab or `x`)", "a card name"])⟩
  | .Exing, chr :: rest, idx, number_str, name =>
    if chr = ' ' ∨ chr = '\t' then
      parse_line_scan .Exing rest (idx + chr.utf8Size) number_str name
    else if chr = 'x' then
      parse_line_scan .Naming rest (idx + chr.utf8Size) number_str name
    else
      parse_line_scan .Naming rest (idx + chr.utf8Size) number_str (name.push chr)
  | .Naming, chr :: rest, idx, number_str, name =>
    parse_line_scan .Naming rest (idx + chr.utf8Size) number_str (name.push chr)

/-- Rust `str::parse::<i64>` restricted to the digit-only strings that
the numeral buffer can contain: succeeds on a nonempty all-digit string
whose value fits in `i64`, fails otherwise (empty buffer, overflow). -/
def parseI64 (s : String) : Option Int :=
  if s.data ≠ [] ∧ s.data.all Char.isDigit then
    let v : Nat := s.data.foldl (fun n c => n * 10 + (c.toNat - 48)) 0
    if v ≤ 9223372036854775807 then some (v : Int) else none
  else none

/-- Rust `str::trim`: drop leading and trailing whitespace. Modelled
over the whitespace characters relevant to this format (space, tab,
carriage return, newline, i.e. `Char.isWhitespace`). -/
def rust_trim (s : String) : String :=
  ⟨((s.data.dropWhile Char.isWhitespace).reverse.dropWhile Char.isWhitespace).reverse⟩

/-- The function `parse_line` (src/parser.rs, lines 163-239); the `?`
operators are written as explicit matches. -/
def parse_line {α : Type} (info : GetCardInfo α) (string : String) :
    Except ParseError (CardEntry α) :=
  match parse_line_scan .Numbering string.data 0 "" "" with
  | .error e => .error e
  | .ok (number_str, name0) =>
    let name := rust_trim name0
    match parseI64 number_str with
    | none => .error ⟨⟨none, none⟩, .NotANumber number_str⟩
    | some number =>
      if number = 0 then
        .error ⟨⟨none, none⟩, .AmountIsZero name⟩
      else if name = "" then
        .error ⟨⟨none, none⟩, .NameIsEmpty⟩
      else
        match info.parse name with
        | .error e => .error e
        | .ok card => .ok ⟨card, number⟩

/-- The body of the `loop` in `parse_file` (src/parser.rs, lines
269-305), over the sequence of `read_line` outcomes (`.ok` a line,
`.error` an I/O fault; end of list is `Ok(0)`/EOF). The loop state
`(cards, errors, used_names)` is returned so the internal name record
can be observed. -/
def parse_file_loop {α : Type} (info : GetCardInfo α) (path : String) :
    List (Except String String) → Nat → List String → List (CardEntry α) →
    List ParseError → (List (CardEntry α) × List ParseError × List String)
  | [], _, used_names, cards, errors => (cards, errors, used_names)
  | line? :: rest, line_idx, used_names, cards, errors =>
    match line? with
    | .ok line =>
      if rust_trim line = "" then
        parse_file_loop info path rest (line_idx + 1) used_names cards errors
      else
        match parse_line info line with
        | .ok entry =>
          let name := info.get_name entry.card
          if used_names.contains name then
            parse_file_loop info path rest (line_idx + 1) used_names cards
              (errors ++ [⟨⟨some line_idx, none⟩, .NameMultipleTimes name⟩])
          else
            parse_file_loop info path rest (line_idx + 1) (used_names ++ [name])
              (cards ++ [entry]) errors
        | .error e =>
          parse_file_loop info path rest (line_idx + 1) used_names cards
            (errors ++ [e.at_line line_idx])
    | .error ioe =>
      parse_file_loop info path rest (line_idx + 1) used_names cards
        (errors ++ [⟨⟨some line_idx, none⟩, .CouldntReadLine path line_idx ioe⟩])

/-- The function `parse_file` (src/parser.rs, lines 252-311). Opening
the file is I/O; its outcome is the `open?` argument (`.error` models
`File::open` failing, `.ok lines` the sequence of `read_line` results). -/
def parse_file {α : Type} (info : GetCardInfo α) (path : String)
    (open? : Except String (List (Except String String))) :
    Except (List ParseError) (List (CardEntry α)) :=
  match open? with
  | .error e => .error [⟨⟨none, none⟩, .CantOpenFile path e⟩]
  | .ok lines =>
    let (cards, errors, _) := parse_file_loop info path lines 1 [] [] []
    if errors.isEmpty then .ok cards else .error errors

/-- The `CustomDeckState` struct (src/tts.rs, lines 178-188); `r#type`
is the field `type`. -/
structure CustomDeckState where
  name : String
  face_url : String
  back_url : String
  num_width : Option Int
  num_height : Option Int
  back_is_hidden : Bool
  unique_back : Bool
  type : Int
deriving DecidableEq, Repr

/-- `CardEntry::get_custom_deck_state` (src/lib.rs, lines 92-103). The
`?` operators run in struct-literal field order: front image, back
image, then card shape. -/
def get_custom_deck_state {α : Type} (info : GetCardInfo α) (e : CardEntry α) :
    Except CardError CustomDeckState :=
  match info.get_front_image e.card with
  | .error err => .error err
  | .ok face_url =>
    match info.get_back_image e.card with
    | .error err => .error err
    | .ok back_url =>
      match info.get_card_shape e.card with
      | .error err => .error err
      | .ok shape =>
        .ok ⟨info.get_name e.card, face_url, back_url, some 1, some 1, true, false,
          shape.toInt⟩

/-- The computed fields of the `ObjectState` struct (src/tts.rs, lines
135-173) as produced by `generate_deck_data` for one card copy. The
fixed cosmetic boilerplate (transform, colour, physics booleans), the
fresh `guid` and the always-`None` `contained_objects` carry no
claim-relevant information and are omitted; `custom_deck` is the
insertion-ordered association-list model of the `HashMap`. -/
structure ObjectState where
  name : String
  card_id : Option Int
  deck_ids : Option (List Int)
  custom_deck : List (Int × CustomDeckState)
deriving DecidableEq, Repr

/-- `HashMap::insert`: replace the value when the key is present,
otherwise add the pair. -/
def hmInsert (k : Int) (v : CustomDeckState) (m : List (Int × CustomDeckState)) :
    List (Int × CustomDeckState) :=
  if m.any (fun p => p.1 = k) then
    m.map (fun p => if p.1 = k then (k, v) else p)
  else m ++ [(k, v)]

/-- The inner `for _ in 0..card.amount` loop of `generate_deck_data`
(src/tts.rs, lines 203-245), run for `n` iterations: each iteration
pushes `id` onto `card_ids` and one `ObjectState` (a `CardCustom` with
`card_id = Some(id)`, no `deck_ids`, and a singleton embedded
`custom_deck` keyed by `idx`) onto `contained_objects`; the embedded
descriptor is a second, fallible `get_custom_deck_state` call. -/
def gdd_copies {α : Type} (info : GetCardInfo α) (card : CardEntry α)
    (idx id : Int) : Nat → Except CardError (List Int × List ObjectState)
  | 0 => .ok ([], [])
  | n + 1 =>
    match get_custom_deck_state info card with
    | .error err => .error err
    | .ok st =>
      match gdd_copies info card idx id n with
      | .error err => .error err
      | .ok (ids, objs) =>
        .ok (id :: ids, ⟨"CardCustom", some id, none, [(idx, st)]⟩ :: objs)

/-- The entry loop of `generate_deck_data` (src/tts.rs, lines 199-246):
`idx` is incremented first, `id = idx * 100`, the card's descriptor is
inserted into `custom_deck` under `idx`, then the copies are emitted. -/
def gdd_loop {α : Type} (info : GetCardInfo α) :
    List (CardEntry α) → Int → List Int → List (Int × CustomDeckState) →
    List ObjectState →
    Except CardError (List Int × List (Int × CustomDeckState) × List ObjectState)
  | [], _, card_ids, custom_deck, objs => .ok (card_ids, custom_deck, objs)
  | card :: rest, idx0, card_ids, custom_deck, objs =>
    let idx := idx0 + 1
    let id := idx * 100
    match get_custom_deck_state info card with
    | .error err => .error err
    | .ok st =>
      match gdd_copies info card idx id card.amount.toNat with
      | .error err => .error err
      | .ok (ids, newObjs) =>
        gdd_loop info rest idx (card_ids ++ ids) (hmInsert idx st custom_deck)
          (objs ++ newObjs)

/-- The function `generate_deck_data` (src/tts.rs, lines 192-248),
returning `(card_ids, custom_deck, contained_objects)`. -/
def generate_deck_data {α : Type} (info : GetCardInfo α)
    (deck : List (CardEntry α)) :
    Except CardError (List Int × List (Int × CustomDeckState) × List ObjectState) :=
  gdd_loop info deck 0 [] [] []

/-- A trivial concrete collaborator over `String` cards: the card is its
name, images and shape are constant, construction always succeeds. Used
only to instantiate theorems at concrete inputs. -/
def unitInfo : GetCardInfo String :=
  ⟨fun s => s, fun _ => .ok "F", fun _ => .ok "B",
   fun _ => .ok .RoundedRectangle, fun s => .ok s⟩

/-- Default descriptor, for totalising `descrOf` below. -/
instance : Inhabited CustomDeckState :=
  ⟨⟨"", "", "", none, none, false, false, 0⟩⟩

/-- The descriptor `get_custom_deck_state` yields for an entry, as a
total function (meaningful whenever the call succeeds). -/
def descrOf {α : Type} (info : GetCardInfo α) (e : CardEntry α) : CustomDeckState :=
  match get_custom_deck_state info e with
  | .ok st => st
  | .error _ => default

/-- Specification side of the deck refinement: the aggregate identifier
list is the card-major concatenation, over the entries in order with
1-based counter `i + 1`, of `amount` copies of the identifier
`(i + 1) * 100`. -/
def spec_deck_ids {α : Type} : Int → List (CardEntry α) → List Int
  | _, [] => []
  | i, e :: rest => List.replicate e.amount.toNat ((i + 1) * 100) ++ spec_deck_ids (i + 1) rest

/-- Specification side of the deck refinement: the descriptor map holds,
for the entry with 1-based counter `i + 1`, that entry's descriptor
under the key `i + 1` (the counter itself, not the identifier). -/
def spec_deck_map {α : Type} (info : GetCardInfo α) : Int → List (CardEntry α) →
    List (Int × CustomDeckState)
  | _, [] => []
  | i, e :: rest => (i + 1, descrOf info e) :: spec_deck_map info (i + 1) rest

/-- Specification side of the deck refinement: per entry, `amount`
replicated `CardCustom` objects, each carrying the identifier
`(i + 1) * 100` and a singleton embedded descriptor map keyed by the
counter `i + 1`. -/
def spec_deck_objs {α : Type} (info : GetCardInfo α) : Int → List (CardEntry α) →
    List ObjectState
  | _, [] => []
  | i, e :: rest =>
    List.replicate e.amount.toNat
        ⟨"CardCustom", some ((i + 1) * 100), none, [(i + 1, descrOf info e)]⟩
      ++ spec_deck_objs info (i + 1) rest

/-- Specification side of the file-parser refinement: the ordered list
of entries a file yields, skipping blank lines, failed lines and
duplicate names (a name is the collaborator-reported name of the
constructed card; `names` is the record of names seen so far). -/
def spec_file_entries {α : Type} (info : GetCardInfo α) :
    List (Except String String) → List String → List (CardEntry α)
  | [], _ => []
  | .ok line :: rest, names =>
    if rust_trim line = "" then spec_file_entries info rest names
    else
      match parse_line info line with
      | .ok entry =>
        if names.contains (info.get_name entry.card) then
          spec_file_entries info rest names
        else
          entry :: spec_file_entries info rest (names ++ [info.get_name entry.card])
      | .error _ => spec_file_entries info rest names
  | .error _ :: rest, names => spec_file_entries info rest names

/-- Specification side of the file-parser refinement: the exhaustive,
ordered error list — line-parse errors tagged with their 1-based line
number `i`, one duplicate-name error per repeated name, one
read-failure error per unreadable line, blank lines skipped. -/
def spec_file_errors {α : Type} (info : GetCardInfo α) (path : String) :
    List (Except String String) → Nat → List String → List ParseError
  | [], _, _ => []
  | .ok line :: rest, i, names =>
    if rust_trim line = "" then spec_file_errors info path rest (i + 1) names
    else
      match parse_line info line with
      | .ok entry =>
        if names.contains (info.get_name entry.card) then
          ⟨⟨some i, none⟩, .NameMultipleTimes (info.get_name entry.card)⟩
            :: spec_file_errors info path rest (i + 1) names
        else
          spec_file_errors info path rest (i + 1) (names ++ [info.get_name entry.card])
      | .error e => e.at_line i :: spec_file_errors info path rest (i + 1) names
  | .error ioe :: rest, i, names =>
    ⟨⟨some i, none⟩, .CouldntReadLine path i ioe⟩
      :: spec_file_errors info path rest (i + 1) names

/-- Specification side of the file-parser refinement: the names the file
parser records, i.e. the collaborator-reported name of each kept entry. -/
def spec_file_names {α : Type} (info : GetCardInfo α) :
    List (Except String String) → List String → List String
  | [], _ => []
  | .ok line :: rest, names =>
    if rust_trim line = "" then spec_file_names info rest names
    else
      match parse_line info line with
      | .ok entry =>
        if names.contains (info.get_name entry.card) then
          spec_file_names info rest names
        else
          info.get_name entry.card
            :: spec_file_names info rest (names ++ [info.get_name entry.card])
      | .error _ => spec_file_names info rest names
  | .error _ :: rest, names => spec_file_names info rest names

/-- The trimmed raw name text of a line: what the scan stage of
`parse_line` accumulated in the name buffer, trimmed — before the
collaborator constructs a card from it. -/
def raw_name (s : String) : String :=
  match parse_line_scan .Numbering s.data 0 "" "" with
  | .ok (_, nm) => rust_trim nm
  | .error _ => ""

/-- A collaborator over `String` cards whose front-image lookup fails on
the card named "BAD"; used to instantiate the fail-fast theorem. -/
def failInfo : GetCardInfo String :=
  ⟨fun s => s,
   fun s => if s = "BAD" then .error (.CardDoesntExist "BAD") else .ok "F",
   fun _ => .ok "B",
   fun _ => .ok .RoundedRectangle,
   fun s => .ok s⟩

/-- A collaborator over `String` cards whose construction maps every raw
name to the same card (reported name "SAME"); used to instantiate the
name-uniqueness theorem on lines whose raw names differ. -/
def normInfo : GetCardInfo String :=
  ⟨fun s => s, fun _ => .ok "F", fun _ => .ok "B",
   fun _ => .ok .RoundedRectangle, fun _ => .ok "SAME"⟩

/-- An ASCII digit occupies one UTF-8 byte. -/
theorem digit_utf8Size (c : Char) (h : c.isDigit = true) : c.utf8Size = 1 := by
  simp [Char.isDigit] at h
  have h2 : c.val ≤ ('9' : Char).val := h.2
  have hcond : c.val ≤ UInt32.ofNatCore 0x7F (by decide) := by
    rw [UInt32.le_def, BitVec.le_def] at h2 ⊢
    have h9 : (('9' : Char).val).toBitVec.toNat = 57 := rfl
    have h127 : ((UInt32.ofNatCore 0x7F (by decide))).toBitVec.toNat = 127 := rfl
    omega
  unfold Char.utf8Size
  rw [if_pos hcond]

/-- Emptiness of a string is emptiness of its character list. -/
theorem mk_isEmpty (l : List Char) : (String.mk l).isEmpty = l.isEmpty := by
  cases l with
  | nil => rfl
  | cons c t =>
    have hne : ¬ (String.mk (c :: t) = "") := by
      intro h
      exact List.cons_ne_nil c t (congrArg String.data h)
    rw [show (c :: t).isEmpty = false from rfl, ← Bool.not_eq_true, String.isEmpty_iff]
    exact hne

/-- In the Naming state the scan appends every remaining character to
the name buffer and succeeds. -/
theorem scan_naming (cs : List Char) : ∀ (idx : Nat) (num name : String),
    parse_line_scan .Naming cs idx num name = .ok (num, ⟨name.data ++ cs⟩) := by
  induction cs with
  | nil => intro idx num name; simp [parse_line_scan]
  | cons c cs ih =>
    intro idx num name
    rw [show parse_line_scan .Naming (c :: cs) idx num name =
        parse_line_scan .Naming cs (idx + c.utf8Size) num (name.push c) from rfl, ih]
    simp

/-- In the Numbering state a block of digits is consumed into the
numeral buffer, advancing the byte offset by one per digit. -/
theorem scan_numbering_digits (ds : List Char) (h : ∀ c ∈ ds, c.isDigit = true) :
    ∀ (rest : List Char) (idx : Nat) (num name : String),
    parse_line_scan .Numbering (ds ++ rest) idx num name =
      parse_line_scan .Numbering rest (idx + ds.length) ⟨num.data ++ ds⟩ name := by
  induction ds with
  | nil => intro rest idx num name; simp
  | cons d ds ih =>
    intro rest idx num name
    have hd : d.isDigit = true := h d (List.mem_cons_self d ds)
    have hds : ∀ c ∈ ds, c.isDigit = true := fun c hc => h c (List.mem_cons_of_mem d hc)
    rw [List.cons_append, show parse_line_scan .Numbering (d :: (ds ++ rest)) idx num name =
        if d.isDigit then
          parse_line_scan .Numbering (ds ++ rest) (idx + d.utf8Size) (num.push d) name
        else if d = ' ' ∨ d = '\t' then
          parse_line_scan .Exing (ds ++ rest) (idx + d.utf8Size) num name
        else if d = 'x' then
          parse_line_scan .Naming (ds ++ rest) (idx + d.utf8Size) num name
        else
          .error ⟨⟨none, some (idx + 1)⟩,
            .UnexpectedChar d
              (if num.isEmpty then ["a digit"]
               else ["a digit", "a number separator (space, tab or `x`)", "a card name"])⟩
      from rfl, if_pos hd, digit_utf8Size d hd, ih hds]
    simp [Nat.add_assoc, Nat.add_comm 1 ds.length]

/-- Refinement of the `parse_file` accumulator loop by the three
specification recursions: final entries, errors and recorded names are
the accumulators extended by the specification values. -/
theorem parse_file_loop_spec {α : Type} (info : GetCardInfo α) (path : String) :
    ∀ (lines : List (Except String String)) (i : Nat) (names : List String)
      (cards : List (CardEntry α)) (errs : List ParseError),
    parse_file_loop info path lines i names cards errs =
      (cards ++ spec_file_entries info lines names,
       errs ++ spec_file_errors info path lines i names,
       names ++ spec_file_names info lines names) := by
  intro lines
  induction lines with
  | nil =>
    intro i names cards errs
    simp [parse_file_loop, spec_file_entries, spec_file_errors, spec_file_names]
  | cons l rest ih =>
    intro i names cards errs
    cases l with
    | ok line =>
      by_cases hb : rust_trim line = ""
      · simp [parse_file_loop, spec_file_entries, spec_file_errors, spec_file_names,
          hb, ih]
      · cases hp : parse_line info line with
        | ok entry =>
          simp [parse_file_loop, spec_file_entries, spec_file_errors, spec_file_names,
            hb, hp, ih]
          split <;> rfl
        | error e =>
          simp [parse_file_loop, spec_file_entries, spec_file_errors, spec_file_names,
            hb, hp, ih]
    | error ioe =>
      simp [parse_file_loop, spec_file_entries, spec_file_errors, spec_file_names, ih]

/-- When the descriptor call for a card succeeds, the copies loop emits
`n` copies of the identifier and `n` identical card objects. -/
theorem gdd_copies_ok {α : Type} (info : GetCardInfo α) (card : CardEntry α)
    (idx id : Int) (st : CustomDeckState)
    (h : get_custom_deck_state info card = .ok st) :
    ∀ n : Nat, gdd_copies info card idx id n =
      .ok (List.replicate n id,
        List.replicate n ⟨"CardCustom", some id, none, [(idx, st)]⟩) := by
  intro n
  induction n with
  | zero => simp [gdd_copies]
  | succ n ih => simp [gdd_copies, h, ih, List.replicate_succ]

/-- Refinement of the `generate_deck_data` loop in the all-successful
case: provided every key already in the map is at most the counter, the
loop extends its accumulators by the specification values. -/
theorem gdd_loop_ok {α : Type} (info : GetCardInfo α) :
    ∀ (deck : List (CardEntry α)) (i : Int) (ids : List Int)
      (cd : List (Int × CustomDeckState)) (objs : List ObjectState),
    (∀ e ∈ deck, (get_custom_deck_state info e).isOk = true) →
    (∀ p ∈ cd, p.1 ≤ i) →
    gdd_loop info deck i ids cd objs =
      .ok (ids ++ spec_deck_ids i deck, cd ++ spec_deck_map info i deck,
        objs ++ spec_deck_objs info i deck) := by
  intro deck
  induction deck with
  | nil =>
    intro i ids cd objs _ _
    simp [gdd_loop, spec_deck_ids, spec_deck_map, spec_deck_objs]
  | cons e rest ih =>
    intro i ids cd objs hok hkeys
    have he : (get_custom_deck_state info e).isOk = true :=
      hok e (List.mem_cons_self e rest)
    obtain ⟨st, hst⟩ : ∃ st, get_custom_deck_state info e = .ok st := by
      cases h : get_custom_deck_state info e with
      | ok st => exact ⟨st, rfl⟩
      | error err => rw [h] at he; simp [Except.isOk, Except.toBool] at he
    have hfresh : cd.any (fun p => p.1 = i + 1) = false := by
      rw [List.any_eq_false]
      intro p hp
      have := hkeys p hp
      simp only [decide_eq_true_eq]
      omega
    have hdescr : descrOf info e = st := by
      unfold descrOf
      rw [hst]
    have hins : hmInsert (i + 1) st cd = cd ++ [(i + 1, st)] := by
      unfold hmInsert
      rw [hfresh]
      simp
    have hrw : gdd_loop info (e :: rest) i ids cd objs =
        gdd_loop info rest (i + 1)
          (ids ++ List.replicate e.amount.toNat ((i + 1) * 100))
          (hmInsert (i + 1) st cd)
          (objs ++ List.replicate e.amount.toNat
            ⟨"CardCustom", some ((i + 1) * 100), none, [(i + 1, st)]⟩) := by
      simp [gdd_loop, hst, gdd_copies_ok info e (i + 1) ((i + 1) * 100) st hst]
    rw [hrw, hins, ih (i + 1) _ _ _ (fun x hx => hok x (List.mem_cons_of_mem e hx))
      (by
        intro p hp
        rcases List.mem_append.mp hp with h1 | h2
        · exact le_trans (hkeys p h1) (by omega)
        · simp at h2
          simp [h2])]
    simp [spec_deck_ids, spec_deck_map, spec_deck_objs, hdescr]

/-- When every descriptor call before a failing entry succeeds, the
`generate_deck_data` loop surfaces exactly the failing call's error. -/
theorem gdd_loop_err {α : Type} (info : GetCardInfo α) (bad : CardEntry α)
    (err : CardError) (rest : List (CardEntry α))
    (hbad : get_custom_deck_state info bad = .error err) :
    ∀ (pre : List (CardEntry α)),
    (∀ e ∈ pre, (get_custom_deck_state info e).isOk = true) →
    ∀ (i : Int) (ids : List Int) (cd : List (Int × CustomDeckState))
      (objs : List ObjectState),
    gdd_loop info (pre ++ bad :: rest) i ids cd objs = .error err := by
  intro pre
  induction pre with
  | nil =>
    intro _ i ids cd objs
    simp [gdd_loop, hbad]
  | cons e pre ih =>
    intro hok i ids cd objs
    have he : (get_custom_deck_state info e).isOk = true :=
      hok e (List.mem_cons_self e pre)
    obtain ⟨st, hst⟩ : ∃ st, get_custom_deck_state info e = .ok st := by
      cases h : get_custom_deck_state info e with
      | ok st => exact ⟨st, rfl⟩
      | error e2 => rw [h] at he; simp [Except.isOk, Except.toBool] at he
    have hrw : gdd_loop info ((e :: pre) ++ bad :: rest) i ids cd objs =
        gdd_loop info (pre ++ bad :: rest) (i + 1)
          (ids ++ List.replicate e.amount.toNat ((i + 1) * 100))
          (hmInsert (i + 1) st cd)
          (objs ++ List.replicate e.amount.toNat
            ⟨"CardCustom", some ((i + 1) * 100), none, [(i + 1, st)]⟩) := by
      simp [gdd_loop, hst, gdd_copies_ok info e (i + 1) ((i + 1) * 100) st hst]
    rw [hrw]
    exact ih (fun x hx => hok x (List.mem_cons_of_mem e hx)) (i + 1) _ _ _

/-- The keys of the specification descriptor map are the consecutive
counters following `i`. -/
theorem spec_deck_map_keys {α : Type} (info : GetCardInfo α) :
    ∀ (deck : List (CardEntry α)) (i : Int),
    (spec_deck_map info i deck).map Prod.fst =
      (List.range deck.length).map (fun (k : Nat) => i + (k : Int) + 1) := by
  intro deck
  induction deck with
  | nil => intro i; simp [spec_deck_map]
  | cons e rest ih =>
    intro i
    rw [List.length_cons, List.range_succ_eq_map]
    simp only [spec_deck_map, List.map_cons, List.map_map, ih (i + 1)]
    congr 1
    · simp
    · apply List.map_congr_left
      intro k _
      simp [Function.comp]
      ring

/-- The specification objects carry, copy for copy, exactly the
specification identifiers as their `card_id`. -/
theorem spec_deck_objs_card_id {α : Type} (info : GetCardInfo α) :
    ∀ (deck : List (CardEntry α)) (i : Int),
    (spec_deck_objs info i deck).map (fun o => o.card_id) =
      (spec_deck_ids i deck).map some := by
  intro deck
  induction deck with
  | nil => intro i; simp [spec_deck_objs, spec_deck_ids]
  | cons e rest ih =>
    intro i
    simp [spec_deck_objs, spec_deck_ids, List.map_replicate, ih (i + 1)]

/-- The number of specification objects is the sum of the entries'
(clamped) amounts. -/
theorem spec_deck_objs_length {α : Type} (info : GetCardInfo α) :
    ∀ (deck : List (CardEntry α)) (i : Int),
    (spec_deck_objs info i deck).length = (deck.map (fun e => e.amount.toNat)).sum := by
  intro deck
  induction deck with
  | nil => intro i; simp [spec_deck_objs]
  | cons e rest ih =>
    intro i
    simp [spec_deck_objs, ih (i + 1)]

/-- C3 counterexample: uppercase `X` does not behave like lowercase `x`
in the Numbering state — "3X Card" does not parse as amount 3, name
"Card"; it fails with an unexpected-character error at column 2. -/
theorem C3_counterexample :
    parse_line unitInfo "3X Card" =
      .error ⟨⟨none, some 2⟩, .UnexpectedChar 'X'
        ["a digit", "a number separator (space, tab or `x`)", "a card name"]⟩ ∧
    parse_line unitInfo "3X Card" ≠ .ok ⟨"Card", 3⟩ := by
  constructor
  · decide
  · decide

/-- C3 (amended): only lowercase `x` is the quantity/name separator. In
the Numbering state `x` transitions to Naming ("3x Card" parses as
amount 3, name "Card") but `X` is an unexpected character ("3X Card"
fails at column 2); in the Separator state `X` does not separate either
but becomes the first character of the name ("3 X Card" parses as
amount 3, name "X Card"). -/
theorem C3_lowercase_x_only :
    parse_line unitInfo "3x Card" = .ok ⟨"Card", 3⟩ ∧
    parse_line unitInfo "3X Card" =
      .error ⟨⟨none, some 2⟩, .UnexpectedChar 'X'
        ["a digit", "a number separator (space, tab or `x`)", "a card name"]⟩ ∧
    parse_line unitInfo "3 X Card" = .ok ⟨"X Card", 3⟩ := by
  refine ⟨by decide, by decide, by decide⟩

/-- C4: on a line consisting of `k - 1` digits followed by a character
that is neither a digit, a space, a tab nor a lowercase `x`, `parse_line`
fails with an unexpected-character error at column `k` (1-based,
counting characters), no line number, and an expected-set of exactly
"a digit" when no digit has been read, extended with the separator and
card-name alternatives once at least one digit has been read. -/
theorem C4_unexpected_char_column {α : Type} (info : GetCardInfo α)
    (ds : List Char) (c : Char) (rest : List Char)
    (hds : ∀ d ∈ ds, d.isDigit = true) (hc : c.isDigit = false)
    (hsp : c ≠ ' ') (htab : c ≠ '\t') (hx : c ≠ 'x') :
    parse_line info ⟨ds ++ c :: rest⟩ =
      .error ⟨⟨none, some (ds.length + 1)⟩, .UnexpectedChar c
        (if ds.isEmpty then ["a digit"]
         else ["a digit", "a number separator (space, tab or `x`)", "a card name"])⟩ := by
  have hscan : parse_line_scan .Numbering (ds ++ c :: rest) 0 "" "" =
      .error ⟨⟨none, some (ds.length + 1)⟩, .UnexpectedChar c
        (if ds.isEmpty then ["a digit"]
         else ["a digit", "a number separator (space, tab or `x`)", "a card name"])⟩ := by
    rw [scan_numbering_digits ds hds (c :: rest) 0 "" ""]
    simp [parse_line_scan, hc, hsp, htab, hx, mk_isEmpty]
  simp [parse_line, hscan]

/-- Witness for C4 at the line "3!abc": the offending `!` sits at
character position 2 and one digit has been read. -/
theorem C4_unexpected_char_column_witness :
    parse_line unitInfo ⟨['3'] ++ '!' :: "abc".data⟩ =
      .error ⟨⟨none, some 2⟩, .UnexpectedChar '!'
        ["a digit", "a number separator (space, tab or `x`)", "a card name"]⟩ := by
  have h := C4_unexpected_char_column unitInfo ['3'] '!' "abc".data
    (by decide) (by decide) (by decide) (by decide) (by decide)
  simpa using h

/-- C5: a line of `k` digits, a lowercase `x`, then arbitrary remaining
text with nonempty trimmed form parses — when the collaborator accepts
the trimmed name — to a `CardEntry` whose amount is the parsed numeral
and whose card was built from exactly the trimmed remainder; everything
after the separator, spaces, tabs and further `x` included, lands in the
name verbatim. -/
theorem C5_valid_line {α : Type} (info : GetCardInfo α) (ds rest : List Char)
    (card : α) (n : Int)
    (hdig : ∀ d ∈ ds, d.isDigit = true)
    (hn : parseI64 ⟨ds⟩ = some n) (hn0 : n ≠ 0)
    (hname : rust_trim ⟨rest⟩ ≠ "")
    (hcard : info.parse (rust_trim ⟨rest⟩) = .ok card) :
    parse_line info ⟨ds ++ 'x' :: rest⟩ = .ok ⟨card, n⟩ := by
  have hscan : parse_line_scan .Numbering (ds ++ 'x' :: rest) 0 "" "" =
      .ok (⟨ds⟩, ⟨rest⟩) := by
    rw [scan_numbering_digits ds hdig ('x' :: rest) 0 "" ""]
    simp [parse_line_scan, scan_naming]
  simp [parse_line, hscan, hn, hn0, hname, hcard]

/-- Witness for C5 at the line "3x1 Card": amount 3, name "1 Card" (the
digit `1` and the space after it are name text, not structure). -/
theorem C5_valid_line_witness :
    parse_line unitInfo ⟨['3'] ++ 'x' :: "1 Card".data⟩ = .ok ⟨"1 Card", 3⟩ := by
  have h := C5_valid_line unitInfo ['3'] "1 Card".data "1 Card" 3
    (by decide) (by decide) (by decide) (by decide) (by decide)
  exact h

/-- C6: when the scan of a line completes with numeral and raw-name
buffers, a numeral parsing to zero yields the amount-is-zero error
carrying the trimmed name, and a nonzero numeral with an empty trimmed
name yields the name-is-empty error; both carry neither line nor
column. -/
theorem C6_zero_amount_empty_name {α : Type} (info : GetCardInfo α)
    (s : String) (numstr rawname : String)
    (hscan : parse_line_scan .Numbering s.data 0 "" "" = .ok (numstr, rawname)) :
    (parseI64 numstr = some 0 →
      parse_line info s = .error ⟨⟨none, none⟩, .AmountIsZero (rust_trim rawname)⟩) ∧
    (∀ n : Int, parseI64 numstr = some n → n ≠ 0 → rust_trim rawname = "" →
      parse_line info s = .error ⟨⟨none, none⟩, .NameIsEmpty⟩) := by
  constructor
  · intro h0
    simp [parse_line, hscan, h0]
  · intro n hn hn0 hempty
    simp [parse_line, hscan, hn, hn0, hempty]

/-- Witness for C6: "0x Foo" fails with the zero-amount error naming
"Foo", and "3x   " fails with the empty-name error. -/
theorem C6_zero_amount_empty_name_witness :
    parse_line unitInfo "0x Foo" = .error ⟨⟨none, none⟩, .AmountIsZero "Foo"⟩ ∧
    parse_line unitInfo "3x   " = .error ⟨⟨none, none⟩, .NameIsEmpty⟩ := by
  constructor
  · have h := (C6_zero_amount_empty_name unitInfo "0x Foo" "0" " Foo"
      (by decide)).1 (by decide)
    simpa using h
  · exact (C6_zero_amount_empty_name unitInfo "3x   " "3" "   "
      (by decide)).2 3 (by decide) (by decide) (by decide)

/-- The names the file parser records are exactly the
collaborator-reported names of the kept entries, in order. -/
theorem spec_file_names_eq {α : Type} (info : GetCardInfo α) :
    ∀ (lines : List (Except String String)) (names : List String),
    spec_file_names info lines names =
      (spec_file_entries info lines names).map (fun e => info.get_name e.card) := by
  intro lines
  induction lines with
  | nil => intro names; simp [spec_file_names, spec_file_entries]
  | cons l rest ih =>
    intro names
    cases l with
    | ok line =>
      by_cases hb : rust_trim line = ""
      · simp [spec_file_names, spec_file_entries, hb, ih]
      · cases hp : parse_line info line with
        | ok entry =>
          simp [spec_file_names, spec_file_entries, hb, hp, ih]
          split <;> simp [ih]
        | error e => simp [spec_file_names, spec_file_entries, hb, hp, ih]
    | error ioe => simp [spec_file_names, spec_file_entries, ih]

/-- C7: file parsing is all-or-nothing but exhaustive. For every line
sequence, the result is the complete entry list exactly when the
specification error list (which tags each line-level error with its
1-based line number, skips blank lines, and records a read failure as
its own error while continuing) is empty, and otherwise it is exactly
that complete error list — never a mix. -/
theorem C7_all_or_nothing {α : Type} (info : GetCardInfo α) (path : String)
    (lines : List (Except String String)) :
    (spec_file_errors info path lines 1 [] = [] →
      parse_file info path (.ok lines) = .ok (spec_file_entries info lines [])) ∧
    (spec_file_errors info path lines 1 [] ≠ [] →
      parse_file info path (.ok lines) = .error (spec_file_errors info path lines 1 [])) := by
  have h := parse_file_loop_spec info path lines 1 [] [] []
  constructor
  · intro he
    simp [parse_file, h, he]
  · intro he
    simp [parse_file, h, List.isEmpty_iff, he]

/-- Witness for C7: a 3-line file with errors on lines 1 and 3 and a
valid line 2 yields exactly those two errors (the valid entry is
discarded); a file whose first line cannot be read still reports the
following line's error; a file with a blank middle line yields both
valid entries. -/
theorem C7_all_or_nothing_witness :
    parse_file unitInfo "deck.txt" (.ok [.ok "oops", .ok "2x Alpha", .ok "1x"]) =
      .error [⟨⟨some 1, some 1⟩, .UnexpectedChar 'o' ["a digit"]⟩,
        ⟨⟨some 3, none⟩, .NameIsEmpty⟩] ∧
    parse_file unitInfo "deck.txt" (.ok [.error "disk fault", .ok "1x"]) =
      .error [⟨⟨some 1, none⟩, .CouldntReadLine "deck.txt" 1 "disk fault"⟩,
        ⟨⟨some 2, none⟩, .NameIsEmpty⟩] ∧
    parse_file unitInfo "deck.txt" (.ok [.ok "2x Alpha", .ok "", .ok "1x Beta"]) =
      .ok [⟨"Alpha", 2⟩, ⟨"Beta", 1⟩] := by
  refine ⟨?_, ?_, ?_⟩
  · rw [(C7_all_or_nothing unitInfo "deck.txt"
      [.ok "oops", .ok "2x Alpha", .ok "1x"]).2 (by decide)]
    decide
  · rw [(C7_all_or_nothing unitInfo "deck.txt"
      [.error "disk fault", .ok "1x"]).2 (by decide)]
    decide
  · rw [(C7_all_or_nothing unitInfo "deck.txt"
      [.ok "2x Alpha", .ok "", .ok "1x Beta"]).1 (by decide)]
    decide

/-- C8: recurring names give a duplicate-name error on the later
occurrence's line. A two-line file whose second line parses to a card
with the same reported name as the first gets a duplicate-name error
attributed to line 2, the duplicate entry is discarded and the first
occurrence is kept (the specification entry list is exactly the first
entry), `parse_file` returns exactly that single error, and — at any
line number `i`, with any already-recorded names containing the entry's
name — a later occurrence contributes exactly one duplicate error
attributed to line `i`, discards its entry, and processing continues. -/
theorem C8_duplicate_name {α : Type} (info : GetCardInfo α) (path l1 l2 : String)
    (e1 e2 : CardEntry α)
    (h1b : rust_trim l1 ≠ "") (h2b : rust_trim l2 ≠ "")
    (hp1 : parse_line info l1 = .ok e1) (hp2 : parse_line info l2 = .ok e2)
    (hname : info.get_name e2.card = info.get_name e1.card) :
    spec_file_entries info [.ok l1, .ok l2] [] = [e1] ∧
    parse_file info path (.ok [.ok l1, .ok l2]) =
      .error [⟨⟨some 2, none⟩, .NameMultipleTimes (info.get_name e2.card)⟩] ∧
    (∀ (post : List (Except String String)) (i : Nat) (names : List String),
      info.get_name e2.card ∈ names →
      spec_file_errors info path (.ok l2 :: post) i names =
        ⟨⟨some i, none⟩, .NameMultipleTimes (info.get_name e2.card)⟩ ::
          spec_file_errors info path post (i + 1) names ∧
      spec_file_entries info (.ok l2 :: post) names =
        spec_file_entries info post names) := by
  have hent : spec_file_entries info [.ok l1, .ok l2] [] = [e1] := by
    simp [spec_file_entries, h1b, h2b, hp1, hp2, hname]
  have herr : spec_file_errors info path [.ok l1, .ok l2] 1 [] =
      [⟨⟨some 2, none⟩, .NameMultipleTimes (info.get_name e2.card)⟩] := by
    simp [spec_file_errors, h1b, h2b, hp1, hp2, hname]
  have h := parse_file_loop_spec info path [.ok l1, .ok l2] 1 [] [] []
  refine ⟨hent, by simp [parse_file, h, herr], ?_⟩
  intro post i names hmem
  constructor
  · simp [spec_file_errors, h2b, hp2, hmem]
  · simp [spec_file_entries, h2b, hp2, hmem]

/-- Witness for C8: "2x Alpha" then "1x Alpha" reports the duplicate on
line 2 and the entry list keeps only the first occurrence; a later
"1x Alpha" at line 7 with "Alpha" already recorded contributes exactly
the line-7 duplicate error. -/
theorem C8_duplicate_name_witness :
    (spec_file_entries unitInfo [.ok "2x Alpha", .ok "1x Alpha"] [] =
      [⟨"Alpha", 2⟩] ∧
    parse_file unitInfo "deck.txt" (.ok [.ok "2x Alpha", .ok "1x Alpha"]) =
      .error [⟨⟨some 2, none⟩, .NameMultipleTimes "Alpha"⟩]) ∧
    spec_file_errors unitInfo "deck.txt" [.ok "1x Alpha"] 7 ["Alpha"] =
      [⟨⟨some 7, none⟩, .NameMultipleTimes "Alpha"⟩] := by
  have h := C8_duplicate_name unitInfo "deck.txt" "2x Alpha" "1x Alpha" ⟨"Alpha", 2⟩
    ⟨"Alpha", 1⟩ (by decide) (by decide) (by decide) (by decide) (by decide)
  refine ⟨⟨h.1, h.2.1⟩, ?_⟩
  have h7 := (h.2.2 [] 7 ["Alpha"] (by decide)).1
  simpa [spec_file_errors] using h7

/-- C9: deck transformation is fail-fast. If every entry before some
entry has a succeeding descriptor call and that entry's descriptor call
fails with `err`, `generate_deck_data` on the whole list returns exactly
`.error err` — no partial deck data is produced. -/
theorem C9_fail_fast {α : Type} (info : GetCardInfo α)
    (pre rest : List (CardEntry α)) (bad : CardEntry α) (err : CardError)
    (hok : ∀ e ∈ pre, (get_custom_deck_state info e).isOk = true)
    (hbad : get_custom_deck_state info bad = .error err) :
    generate_deck_data info (pre ++ bad :: rest) = .error err := by
  unfold generate_deck_data
  exact gdd_loop_err info bad err rest hbad pre hok 0 [] [] []

/-- Witness for C9: with a collaborator failing on the card "BAD", a
three-entry deck aborts with exactly that card's error. -/
theorem C9_fail_fast_witness :
    generate_deck_data failInfo [⟨"A", 1⟩, ⟨"BAD", 2⟩, ⟨"C", 3⟩] =
      .error (.CardDoesntExist "BAD") := by
  have h := C9_fail_fast failInfo [⟨"A", 1⟩] [⟨"C", 3⟩] ⟨"BAD", 2⟩
    (.CardDoesntExist "BAD") (by decide) (by decide)
  simpa using h

/-- C10: file-level name uniqueness is judged on the collaborator's
reported name, not the raw line text — two lines with different raw
(trimmed) names still collide when the constructed cards report the
same name, with the duplicate error on line 2 — and the recorded
used-name list is always the reported names of the kept entries. -/
theorem C10_uniqueness_by_reported_name {α : Type} (info : GetCardInfo α)
    (path l1 l2 : String) (e1 e2 : CardEntry α)
    (h1b : rust_trim l1 ≠ "") (h2b : rust_trim l2 ≠ "")
    (hp1 : parse_line info l1 = .ok e1) (hp2 : parse_line info l2 = .ok e2)
    (_hraw : raw_name l1 ≠ raw_name l2)
    (hname : info.get_name e2.card = info.get_name e1.card) :
    parse_file info path (.ok [.ok l1, .ok l2]) =
      .error [⟨⟨some 2, none⟩, .NameMultipleTimes (info.get_name e2.card)⟩] ∧
    (∀ lines : List (Except String String),
      (parse_file_loop info path lines 1 [] [] []).2.2 =
        (parse_file_loop info path lines 1 [] [] []).1.map
          (fun e => info.get_name e.card)) := by
  constructor
  · have herr : spec_file_errors info path [.ok l1, .ok l2] 1 [] =
        [⟨⟨some 2, none⟩, .NameMultipleTimes (info.get_name e2.card)⟩] := by
      simp [spec_file_errors, h1b, h2b, hp1, hp2, hname]
    have h := parse_file_loop_spec info path [.ok l1, .ok l2] 1 [] [] []
    simp [parse_file, h, herr]
  · intro lines
    rw [parse_file_loop_spec info path lines 1 [] [] []]
    simp [spec_file_names_eq]

/-- Witness for C10: under a collaborator mapping every raw name to the
reported name "SAME", the lines "1x a" and "1x b" (raw names "a" and
"b") still collide, and the recorded names match the kept entries'
reported names. -/
theorem C10_uniqueness_by_reported_name_witness :
    parse_file normInfo "deck.txt" (.ok [.ok "1x a", .ok "1x b"]) =
      .error [⟨⟨some 2, none⟩, .NameMultipleTimes "SAME"⟩] ∧
    (parse_file_loop normInfo "deck.txt" [.ok "1x a", .ok "1x b"] 1 [] [] []).2.2 =
      (parse_file_loop normInfo "deck.txt" [.ok "1x a", .ok "1x b"] 1 [] [] []).1.map
        (fun e => normInfo.get_name e.card) := by
  have h := C10_uniqueness_by_reported_name normInfo "deck.txt" "1x a" "1x b"
    ⟨"SAME", 1⟩ ⟨"SAME", 1⟩ (by decide) (by decide) (by decide) (by decide)
    (by decide) (by decide)
  exact ⟨h.1, h.2 [.ok "1x a", .ok "1x b"]⟩

/-- C1 counterexample: for the single-entry deck ["A" x1] the descriptor
map's key is the counter 1, not the assigned identifier 1 * 100 = 100 —
the map is keyed by `idx`, not by `idx * 100`. -/
theorem C1_counterexample :
    (match generate_deck_data unitInfo [⟨"A", 1⟩] with
     | .ok (_, cd, _) => cd.map Prod.fst
     | .error _ => []) = [1] ∧ (1 : Int) ≠ 1 * 100 := by
  decide

/-- C1 (amended): for every entry list on which all descriptor calls
succeed, the descriptor map is `spec_deck_map` — each distinct card's
descriptor stored under that card's 1-based counter (the identifier
divided by 100), so its key list is exactly `[1, …, n]`, one key per
entry. -/
theorem C1_descriptor_map_keys {α : Type} (info : GetCardInfo α)
    (deck : List (CardEntry α))
    (hok : ∀ e ∈ deck, (get_custom_deck_state info e).isOk = true)
    (ids : List Int) (cd : List (Int × CustomDeckState)) (objs : List ObjectState)
    (hgen : generate_deck_data info deck = .ok (ids, cd, objs)) :
    cd = spec_deck_map info 0 deck ∧
    cd.map Prod.fst = (List.range deck.length).map (fun (k : Nat) => (k : Int) + 1) := by
  unfold generate_deck_data at hgen
  rw [gdd_loop_ok info deck 0 [] [] [] hok (by simp)] at hgen
  simp only [List.nil_append, Except.ok.injEq, Prod.mk.injEq] at hgen
  obtain ⟨h1, h2, h3⟩ := hgen
  refine ⟨h2.symm, ?_⟩
  rw [← h2, spec_deck_map_keys info deck 0]
  simp

/-- Witness for C1 at the deck ["A" x2, "B" x1]: the map keys are
[1, 2], not [100, 200]. -/
theorem C1_descriptor_map_keys_witness :
    generate_deck_data unitInfo [⟨"A", 2⟩, ⟨"B", 1⟩] =
      .ok ([100, 100, 200],
        [(1, ⟨"A", "F", "B", some 1, some 1, true, false, 0⟩),
         (2, ⟨"B", "F", "B", some 1, some 1, true, false, 0⟩)],
        [⟨"CardCustom", some 100, none,
           [(1, ⟨"A", "F", "B", some 1, some 1, true, false, 0⟩)]⟩,
         ⟨"CardCustom", some 100, none,
           [(1, ⟨"A", "F", "B", some 1, some 1, true, false, 0⟩)]⟩,
         ⟨"CardCustom", some 200, none,
           [(2, ⟨"B", "F", "B", some 1, some 1, true, false, 0⟩)]⟩]) ∧
    ([(1, (⟨"A", "F", "B", some 1, some 1, true, false, 0⟩ : CustomDeckState)),
      (2, ⟨"B", "F", "B", some 1, some 1, true, false, 0⟩)].map Prod.fst =
      (List.range 2).map (fun (k : Nat) => (k : Int) + 1)) ∧
    (List.range 2).map (fun (k : Nat) => (k : Int) + 1) = [1, 2] := by
  have hgen : generate_deck_data unitInfo [⟨"A", 2⟩, ⟨"B", 1⟩] =
      .ok ([100, 100, 200],
        [(1, ⟨"A", "F", "B", some 1, some 1, true, false, 0⟩),
         (2, ⟨"B", "F", "B", some 1, some 1, true, false, 0⟩)],
        [⟨"CardCustom", some 100, none,
           [(1, ⟨"A", "F", "B", some 1, some 1, true, false, 0⟩)]⟩,
         ⟨"CardCustom", some 100, none,
           [(1, ⟨"A", "F", "B", some 1, some 1, true, false, 0⟩)]⟩,
         ⟨"CardCustom", some 200, none,
           [(2, ⟨"B", "F", "B", some 1, some 1, true, false, 0⟩)]⟩]) := by
    decide
  exact ⟨hgen,
    (C1_descriptor_map_keys unitInfo [⟨"A", 2⟩, ⟨"B", 1⟩] (by decide) _ _ _ hgen).2,
    by decide⟩

/-- C2: for every entry list on which all descriptor calls succeed, the
aggregate identifier list is the card-major concatenation of `amount`
copies of each entry's identifier `(counter) * 100` in first-seen order
(`spec_deck_ids`), the replicated-object list's length is the sum of the
amounts, and the objects carry — copy for copy, in the same card-major
order — exactly those identifiers in their `card_id` field. -/
theorem C2_identifiers_and_replication {α : Type} (info : GetCardInfo α)
    (deck : List (CardEntry α))
    (hok : ∀ e ∈ deck, (get_custom_deck_state info e).isOk = true)
    (ids : List Int) (cd : List (Int × CustomDeckState)) (objs : List ObjectState)
    (hgen : generate_deck_data info deck = .ok (ids, cd, objs)) :
    ids = spec_deck_ids 0 deck ∧
    objs.length = (deck.map (fun e => e.amount.toNat)).sum ∧
    objs.map (fun o => o.card_id) = (spec_deck_ids 0 deck).map some := by
  unfold generate_deck_data at hgen
  rw [gdd_loop_ok info deck 0 [] [] [] hok (by simp)] at hgen
  simp only [List.nil_append, Except.ok.injEq, Prod.mk.injEq] at hgen
  obtain ⟨h1, h2, h3⟩ := hgen
  refine ⟨h1.symm, ?_, ?_⟩
  · rw [← h3, spec_deck_objs_length info deck 0]
  · rw [← h3, spec_deck_objs_card_id info deck 0]

/-- Witness for C2 at the deck ["A" x2, "B" x1]: identifiers A↦100,
B↦200, aggregate list [100, 100, 200], three objects carrying
[some 100, some 100, some 200]. -/
theorem C2_identifiers_and_replication_witness :
    generate_deck_data unitInfo [⟨"A", 2⟩, ⟨"B", 1⟩] =
      .ok ([100, 100, 200],
        [(1, ⟨"A", "F", "B", some 1, some 1, true, false, 0⟩),
         (2, ⟨"B", "F", "B", some 1, some 1, true, false, 0⟩)],
        [⟨"CardCustom", some 100, none,
           [(1, ⟨"A", "F", "B", some 1, some 1, true, false, 0⟩)]⟩,
         ⟨"CardCustom", some 100, none,
           [(1, ⟨"A", "F", "B", some 1, some 1, true, false, 0⟩)]⟩,
         ⟨"CardCustom", some 200, none,
           [(2, ⟨"B", "F", "B", some 1, some 1, true, false, 0⟩)]⟩]) ∧
    ([100, 100, 200] : List Int) = spec_deck_ids 0 [(⟨"A", 2⟩ : CardEntry String), ⟨"B", 1⟩] ∧
    spec_deck_ids 0 [(⟨"A", 2⟩ : CardEntry String), ⟨"B", 1⟩] = [100, 100, 200] := by
  have hgen : generate_deck_data unitInfo [⟨"A", 2⟩, ⟨"B", 1⟩] =
      .ok ([100, 100, 200],
        [(1, ⟨"A", "F", "B", some 1, some 1, true, false, 0⟩),
         (2, ⟨"B", "F", "B", some 1, some 1, true, false, 0⟩)],
        [⟨"CardCustom", some 100, none,
           [(1, ⟨"A", "F", "B", some 1, some 1, true, false, 0⟩)]⟩,
         ⟨"CardCustom", some 100, none,
           [(1, ⟨"A", "F", "B", some 1, some 1, true, false, 0⟩)]⟩,
         ⟨"CardCustom", some 200, none,
           [(2, ⟨"B", "F", "B", some 1, some 1, true, false, 0⟩)]⟩]) := by
    decide
  exact ⟨hgen,
    (C2_identifiers_and_replication unitInfo [⟨"A", 2⟩, ⟨"B", 1⟩] (by decide)
      _ _ _ hgen).1,
    by decide⟩
